import Mathlib

/-
Verification of the session/kernel orchestration core of the marimo
repository, as a shallow embedding in Lean 4.

The embedding covers:
  marimo/_server/sessions.py
    Room (add_consumer, remove_consumer, broadcast, close)
    Session (connection_state, put_control_request, close)
    SessionManager (get_session, close_session, maybe_resume_session)
  marimo/_server/session/serialize.py
    _hash_code, SessionCacheManager.is_cache_hit,
    deserialize_session, SessionCacheManager.read_session_view

Modelling conventions:
  - Python dicts become insertion-ordered association lists; dict keys that
    are Python objects (SessionConsumer instances) are keyed by an `oid`
    field that models object identity.
  - Mutation becomes explicit state passing; a method that can raise
    returns its final state together with a Bool flag (or a dedicated
    result type) recording whether an exception escaped.
  - External side effects that the claims observe (consumer stop hooks,
    disposal callbacks, distributor/cache/kernel teardown) are recorded in
    an explicit event list.
  - hashlib.md5 and the filesystem are external to the repository; they
    are passed in as explicit function parameters.
-/

set_option maxHeartbeats 1000000

namespace Marimo

/-- Connection state of a consumer or a session
(marimo._server.model.ConnectionState). -/
inductive ConnectionState where
| OPEN
| ORPHANED
| CLOSED
deriving DecidableEq, Repr

/-- Model of a marimo._server.model.SessionConsumer: `oid` models Python
object identity (the consumer is used as a dict key), `consumer_id` its
stable id string, `connState` the value its connection_state() method
reports, and `stopRaises` whether its external on_stop() hook raises. -/
structure SessionConsumer where
  oid : Nat
  consumer_id : String
  connState : ConnectionState
  stopRaises : Bool
deriving DecidableEq, Repr

/-- Observable teardown/lifecycle effects recorded by the embedding:
`stop oid` is a call to the consumer's on_stop() hook, `dispose oid d` a
call to the disposal callback `d` that was registered for consumer `oid`,
and the rest are the session-level teardown actions of Session.close. -/
inductive Event where
| stop (oid : Nat)
| dispose (oid : Nat) (d : Nat)
| distributorStop
| heartbeatCancel
| cacheStop
| kernelClose
deriving DecidableEq, Repr

/-- Lookup in a consumer-keyed dict (keys compared by object identity). -/
def cfind {α : Type} (m : List (SessionConsumer × α)) (c : SessionConsumer) :
    Option α :=
  match m with
  | [] => none
  | (k, v) :: rest => if k.oid = c.oid then some v else cfind rest c

/-- Python dict assignment `m[c] = v`: replace the value at the key if it
is present (keeping its position), else append the new pair. -/
def cset {α : Type} (m : List (SessionConsumer × α)) (c : SessionConsumer)
    (v : α) : List (SessionConsumer × α) :=
  match m with
  | [] => [(c, v)]
  | (k, v0) :: rest =>
      if k.oid = c.oid then (k, v) :: rest else (k, v0) :: cset rest c v

/-- Python dict `m.pop(c)`: return the removed value (if any) and the
remaining dict. -/
def cpop {α : Type} (m : List (SessionConsumer × α)) (c : SessionConsumer) :
    Option α × List (SessionConsumer × α) :=
  match m with
  | [] => (none, [])
  | (k, v) :: rest =>
      if k.oid = c.oid then (some v, rest)
      else
        let r := cpop rest c
        (r.1, (k, v) :: r.2)

/-- Membership test `c in m` for a consumer-keyed dict. -/
def cmem {α : Type} (m : List (SessionConsumer × α)) (c : SessionConsumer) :
    Bool :=
  (cfind m c).isSome

/-- Operations that the orchestration layer broadcasts to a room
(the subset of marimo._messaging.ops.MessageOperation that the embedded
code constructs, plus an opaque case for all others). -/
inductive MessageOperation where
| updateCellCodes (cell_ids : List String) (codes : List String)
    (code_is_stale : Bool)
| focusCell (cell_id : String)
| reload
| other (tag : String)
deriving DecidableEq, Repr

/-- Model of sessions.Room: the main-consumer slot and the two
insertion-ordered dicts keyed by consumer object. Disposables are modelled
by a numeric callback id. -/
structure Room where
  main_consumer : Option SessionConsumer
  consumers : List (SessionConsumer × String)
  disposables : List (SessionConsumer × Nat)
deriving DecidableEq, Repr

/-- Room.add_consumer. The returned Bool records whether the
`assert self.main_consumer is None` failed (an AssertionError escaped).
Note the source inserts into both dicts before the assert runs. -/
def Room.add_consumer (r : Room) (consumer : SessionConsumer)
    (dispose : Nat) (consumer_id : String) (main : Bool) : Room × Bool :=
  let consumers := cset r.consumers consumer consumer_id
  let disposables := cset r.disposables consumer dispose
  if main then
    if r.main_consumer.isSome then
      ({ main_consumer := r.main_consumer, consumers := consumers,
         disposables := disposables }, true)
    else
      ({ main_consumer := some consumer, consumers := consumers,
         disposables := disposables }, false)
  else
    ({ main_consumer := r.main_consumer, consumers := consumers,
       disposables := disposables }, false)

/-- Room.remove_consumer. Returns the new room, the recorded events, and
whether an exception escaped. The source clears the main slot, pops both
dicts, then runs `try: consumer.on_stop() finally: disposable.dispose()`,
so the disposal callback runs even when the stop hook raises. A missing
disposable entry is a KeyError (raised before the stop hook runs). -/
def Room.remove_consumer (r : Room) (consumer : SessionConsumer) :
    Room × List Event × Bool :=
  if cmem r.consumers consumer = false then (r, [], false)
  else
    let main_consumer :=
      match r.main_consumer with
      | some m => if m.oid = consumer.oid then none else some m
      | none => none
    let consumers := (cpop r.consumers consumer).2
    let popped := cpop r.disposables consumer
    match popped.1 with
    | none =>
        ({ main_consumer := main_consumer, consumers := consumers,
           disposables := popped.2 }, [], true)
    | some d =>
        ({ main_consumer := main_consumer, consumers := consumers,
           disposables := popped.2 },
         [Event.stop consumer.oid, Event.dispose consumer.oid d],
         consumer.stopRaises)

/-- Room.broadcast: the list of (consumer, operation) deliveries made by
the loop, in room order. A consumer whose id equals `except_consumer` is
skipped; a consumer not in the OPEN state is skipped. -/
def Room.broadcast (r : Room) (operation : MessageOperation)
    (except_consumer : Option String) :
    List (SessionConsumer × MessageOperation) :=
  r.consumers.filterMap fun p =>
    if some p.1.consumer_id = except_consumer then none
    else if p.1.connState = ConnectionState.OPEN then some (p.1, operation)
    else none

/-- Loop body of Room.close: for each consumer, pop its disposable
(KeyError if missing), call on_stop (without try/finally here: if the
hook raises the loop aborts and the dispose call is skipped), then call
dispose. Returns the remaining disposables dict, the events, and whether
an exception escaped. -/
def closeLoop (dis : List (SessionConsumer × Nat)) :
    List SessionConsumer → List (SessionConsumer × Nat) × List Event × Bool
  | [] => (dis, [], false)
  | c :: rest =>
      let popped := cpop dis c
      match popped.1 with
      | none => (popped.2, [], true)
      | some d =>
          if c.stopRaises then (popped.2, [Event.stop c.oid], true)
          else
            let r := closeLoop popped.2 rest
            (r.1, Event.stop c.oid :: Event.dispose c.oid d :: r.2.1, r.2.2)

/-- Room.close: tears down every consumer; on success the consumer dict is
emptied and the main slot cleared. If the loop raises, the exception
escapes before those two assignments run. -/
def Room.close (r : Room) : Room × List Event × Bool :=
  let res := closeLoop r.disposables (r.consumers.map Prod.fst)
  if res.2.2 then
    ({ r with disposables := res.1 }, res.2.1, true)
  else
    ({ main_consumer := none, consumers := [], disposables := res.1 },
     res.2.1, false)

/-- Control requests carried by the kernel control queue (the subset of
marimo._runtime.requests that Session.put_control_request inspects by
isinstance, plus an opaque case for every other request kind). -/
inductive ControlRequest where
| setUIElementValue (token : String)
| executeMultiple (cell_ids : List String) (codes : List String)
| creation (token : String)
| stopRequest
| other (tag : String)
deriving DecidableEq, Repr

/-- Session mode (marimo._server.model.SessionMode). -/
inductive SessionMode where
| EDIT
| RUN
deriving DecidableEq, Repr

/-- Model of sessions.Session with the state the verified claims observe:
`path` is app_file_manager.path, `kernel_task` models
kernel_manager.kernel_task (none when not started, some b when started
with is_alive() = b), `_closed` the idempotence flag of close(), `room`
the broadcast room, the three lists model the control queue, the
set-ui-element queue and the list of requests recorded into the
SessionView by add_control_request, and the two Bools whether the
heartbeat task and the session cache manager are present. -/
structure Session where
  path : Option String
  kernel_task : Option Bool
  _closed : Bool
  room : Room
  control_queue : List ControlRequest
  set_ui_element_queue : List ControlRequest
  session_view_requests : List ControlRequest
  has_heartbeat_task : Bool
  has_session_cache_manager : Bool
deriving DecidableEq, Repr

/-- Session.connection_state: CLOSED once closed, ORPHANED without a main
consumer, otherwise whatever the main consumer reports. -/
def Session.connection_state (s : Session) : ConnectionState :=
  if s._closed then ConnectionState.CLOSED
  else
    match s.room.main_consumer with
    | none => ConnectionState.ORPHANED
    | some c => c.connState

/-- Session.close: a no-op when already closed; otherwise sets the closed
flag, closes the room, stops the message distributor, cancels the
heartbeat task if present, stops the cache manager if present, and closes
the kernel (whose close_kernel asserts that the kernel was started). If
the room close raises, the exception escapes before the later steps. -/
def Session.close (s : Session) : Session × List Event × Bool :=
  if s._closed then (s, [], false)
  else
    let roomRes := s.room.close
    let s1 : Session := { s with _closed := true, room := roomRes.1 }
    if roomRes.2.2 then (s1, roomRes.2.1, true)
    else
      let tail :=
        [Event.distributorStop]
          ++ (if s.has_heartbeat_task then [Event.heartbeatCancel] else [])
          ++ (if s.has_session_cache_manager then [Event.cacheStop] else [])
      if s.kernel_task.isNone then (s1, roomRes.2.1 ++ tail, true)
      else (s1, roomRes.2.1 ++ tail ++ [Event.kernelClose], false)

/-- Session.put_control_request: enqueue to the control queue; mirror
set-UI-element requests to the dedicated queue; for a multi-cell
execution request broadcast UpdateCellCodes (not stale) to everyone but
the originator, plus FocusCell when there is exactly one cell id; and
record the request into the session view. Returns the new session state
and the room deliveries made. -/
def Session.put_control_request (s : Session) (request : ControlRequest)
    (from_consumer_id : Option String) :
    Session × List (SessionConsumer × MessageOperation) :=
  let control_queue := s.control_queue ++ [request]
  let set_ui_element_queue :=
    match request with
    | ControlRequest.setUIElementValue _ =>
        s.set_ui_element_queue ++ [request]
    | _ => s.set_ui_element_queue
  let deliveries :=
    match request with
    | ControlRequest.executeMultiple cell_ids codes =>
        s.room.broadcast
          (MessageOperation.updateCellCodes cell_ids codes false)
          from_consumer_id
          ++ (match cell_ids with
              | [cid] =>
                  s.room.broadcast (MessageOperation.focusCell cid)
                    from_consumer_id
              | _ => [])
    | _ => []
  ({ s with control_queue := control_queue,
            set_ui_element_queue := set_ui_element_queue,
            session_view_requests := s.session_view_requests ++ [request] },
   deliveries)

/-- Lookup in a string-keyed dict (`m.get(k)`). -/
def alookup {α : Type} (m : List (String × α)) (k : String) : Option α :=
  match m with
  | [] => none
  | (k0, v) :: rest => if k0 = k then some v else alookup rest k

/-- Python dict assignment `m[k] = v`: replace in place or append. -/
def aset {α : Type} (m : List (String × α)) (k : String) (v : α) :
    List (String × α) :=
  match m with
  | [] => [(k, v)]
  | (k0, v0) :: rest =>
      if k0 = k then (k0, v) :: rest else (k0, v0) :: aset rest k v

/-- Python dict deletion `del m[k]` (keys are unique in a dict, so
filtering the key out is the deletion of its single entry). -/
def aerase {α : Type} (m : List (String × α)) (k : String) :
    List (String × α) :=
  m.filter fun p => p.1 != k

/-- Model of sessions.SessionManager: the mode and the session map. The
file-watcher manager is omitted: the verified entry points are modelled
with watch disabled, under which close_session never touches it. -/
structure SessionManager where
  mode : SessionMode
  sessions : List (String × Session)
deriving DecidableEq, Repr

/-- SessionManager.get_session: direct lookup by session id, then a
search for a session holding a kiosk consumer with that consumer id. -/
def SessionManager.get_session (sm : SessionManager) (session_id : String) :
    Option Session :=
  match alookup sm.sessions session_id with
  | some s => some s
  | none =>
      (sm.sessions.map Prod.snd).find? fun s =>
        (s.room.consumers.map Prod.snd).contains session_id

/-- SessionManager.close_session: find the session (by id or kiosk
consumer), close it, and delete the id key if present. Returns the new
manager state and whether session.close raised. When close raises, the
exception escapes before the deletion, so the (mutated) session stays in
the map. -/
def SessionManager.close_session (sm : SessionManager) (session_id : String) :
    SessionManager × Bool :=
  match alookup sm.sessions session_id with
  | some s =>
      let c := s.close
      let sm1 : SessionManager :=
        { sm with sessions := aset sm.sessions session_id c.1 }
      if c.2.2 then (sm1, true)
      else ({ sm1 with sessions := aerase sm1.sessions session_id }, false)
  | none =>
      match sm.sessions.find?
          (fun p => (p.2.room.consumers.map Prod.snd).contains session_id)
        with
      | none => (sm, false)
      | some (k, s) =>
          let c := s.close
          let sm1 : SessionManager :=
            { sm with sessions := aset sm.sessions k c.1 }
          (sm1, c.2.2)

/-- Loop of the dead-kernel cleanup in maybe_resume_session: iterate over
a snapshot of the items, closing every session whose kernel task exists
and is not alive. Stops (propagating) if a close raises. -/
def gcLoop (sm : SessionManager) :
    List (String × Session) → SessionManager × Bool
  | [] => (sm, false)
  | (sid, s) :: rest =>
      if s.kernel_task = some false then
        let r := sm.close_session sid
        if r.2 then (r.1, true) else gcLoop r.1 rest
      else gcLoop sm rest

/-- Result of maybe_resume_session: either an exception escaped (with the
manager state at that point) or a normal return of an optional session. -/
inductive MRResult where
| raised (sm : SessionManager) (msg : String)
| ok (sm : SessionManager) (result : Option Session)
deriving DecidableEq, Repr

/-- SessionManager.maybe_resume_session. In RUN mode: resume only a
session that get_session finds in the ORPHANED state. In EDIT mode: GC
dead-kernel sessions; gather sessions whose file path equals the resolved
file key; none means no resumption, more than one raises
InvalidSessionException, exactly one is resumed when ORPHANED by re-keying
it under the new session id. `abspath` models os.path.abspath. -/
def SessionManager.maybe_resume_session (sm : SessionManager)
    (new_session_id : String) (file_key : String)
    (abspath : String → String) : MRResult :=
  if sm.mode = SessionMode.RUN then
    match sm.get_session new_session_id with
    | some s =>
        if s.connection_state = ConnectionState.ORPHANED then
          MRResult.ok sm (some s)
        else MRResult.ok sm none
    | none => MRResult.ok sm none
  else
    let g := gcLoop sm sm.sessions
    if g.2 then MRResult.raised g.1 "exception during close_session"
    else
      let sm1 := g.1
      let matching :=
        sm1.sessions.filter fun p => p.2.path = some (abspath file_key)
      if matching.length = 0 then MRResult.ok sm1 none
      else if matching.length > 1 then
        MRResult.raised sm1 "Only one session should exist while editing"
      else
        match matching.head? with
        | none => MRResult.ok sm1 none
        | some (session_id, s) =>
            if s.connection_state = ConnectionState.ORPHANED then
              let sessions1 := aset sm1.sessions new_session_id s
              let sessions2 :=
                if new_session_id ≠ session_id
                    ∧ (alookup sessions1 session_id).isSome then
                  aerase sessions1 session_id
                else sessions1
              MRResult.ok { sm1 with sessions := sessions2 } (some s)
            else MRResult.ok sm1 none

/-- Key against which a cached notebook session is validated
(serialize.SessionCacheKey): the ordered per-cell codes and the marimo
version string. -/
structure SessionCacheKey where
  codes : List (Option String)
  marimo_version : String
deriving DecidableEq, Repr

/-- One output entry of a cached cell (marimo._schemas.session.OutputType,
discriminated by its "type" field): an error record or a data record
whose payload is a mimetype-to-data mapping. Payloads are modelled as
strings. -/
inductive OutputType where
| error (ename : String) (evalue : String) (traceback : List String)
| data (data : List (String × String))
deriving DecidableEq, Repr

/-- One console entry of a cached cell
(marimo._schemas.session.ConsoleType, discriminated by its "name" field):
a media stream or a text stream named stdout/stderr. -/
inductive ConsoleType where
| streamMedia (mimetype : String) (data : String)
| stream (name : String) (text : String)
deriving DecidableEq, Repr

/-- One cell of a cached notebook-session document
(marimo._schemas.session.Cell). -/
structure SessionCell where
  id : String
  code_hash : Option String
  outputs : List OutputType
  console : List ConsoleType
deriving DecidableEq, Repr

/-- A cached notebook-session document
(marimo._schemas.session.NotebookSessionV1): the schema version, the
recorded marimo version (metadata.marimo_version) and the cells. -/
structure NotebookSessionV1 where
  version : String
  marimo_version : String
  cells : List SessionCell
deriving DecidableEq, Repr

/-- serialize._hash_code: None for a missing or empty code, otherwise the
hex digest of the md5 hash of the code. hashlib.md5 is external; it is
passed in as the function `md5`. -/
def hash_code (md5 : String → String) : Option String → Option String
  | none => none
  | some code => if code = "" then none else some (md5 code)

/-- SessionCacheManager.is_cache_hit: false if the number of codes differs
from the number of cached cells or any positional code hash differs;
false if the marimo version differs; true otherwise. -/
def is_cache_hit (md5 : String → String)
    (notebook_session : NotebookSessionV1) (key : SessionCacheKey) : Bool :=
  if (key.codes.length != notebook_session.cells.length)
      || ((key.codes.zip notebook_session.cells).any fun p =>
            hash_code md5 p.1 != p.2.code_hash) then
    false
  else if key.marimo_version != notebook_session.marimo_version then false
  else true

/-- Channel of an in-memory cell output
(marimo._messaging.cell_output.CellChannel; external module, modelled
from the spec's consumer/output description). -/
inductive CellChannel where
| OUTPUT
| MARIMO_ERROR
| MEDIA
| STDERR
| STDOUT
deriving DecidableEq, Repr

/-- Payload of an in-memory cell output: a plain string, a list of
(exception_type, msg) error records, or a mimetype bundle. -/
inductive OutputData where
| str (s : String)
| errorList (es : List (String × String))
| bundle (d : List (String × String))
deriving DecidableEq, Repr

/-- Modelled from the spec: marimo._messaging.cell_output.CellOutput is
external to src/; per the spec's session-consumer and cache-format
description it carries a channel, a mimetype and a data payload. -/
structure CellOutput where
  channel : CellChannel
  mimetype : String
  data : OutputData
deriving DecidableEq, Repr

/-- Modelled from the spec: CellOutput.errors builds a MARIMO_ERROR
channelled output holding the error records. -/
def CellOutput.errors (es : List (String × String)) : CellOutput :=
  { channel := CellChannel.MARIMO_ERROR,
    mimetype := "application/vnd.marimo+error",
    data := OutputData.errorList es }

/-- Model of marimo._messaging.ops.CellOp as deserialize_session
constructs it: idle status, optional first output, console outputs and a
zero timestamp. -/
structure CellOp where
  cell_id : String
  status : Option String
  output : Option CellOutput
  console : List CellOutput
  timestamp : Nat
deriving DecidableEq, Repr

/-- Model of session_view.SessionView restricted to the state
deserialize_session populates: the cell_operations dict. -/
structure SessionView where
  cell_operations : List (String × CellOp)
deriving DecidableEq, Repr

/-- Output conversion loop of serialize.deserialize_session: an error
entry becomes a MARIMO_ERROR output; a data entry with an empty payload
is skipped, a single-entry payload becomes a plain OUTPUT, a larger one a
mimebundle OUTPUT. -/
def deserializeOutputs (outputs : List OutputType) : List CellOutput :=
  outputs.foldl
    (fun acc output =>
      match output with
      | OutputType.error ename evalue _ =>
          acc ++ [CellOutput.errors [(ename, evalue)]]
      | OutputType.data d =>
          match d with
          | [] => acc
          | [(mt, dat)] =>
              acc ++ [{ channel := CellChannel.OUTPUT, mimetype := mt,
                        data := OutputData.str dat }]
          | _ =>
              acc ++ [{ channel := CellChannel.OUTPUT,
                        mimetype := "application/vnd.marimo+mimebundle",
                        data := OutputData.bundle d }])
    []

/-- Console conversion loop of serialize.deserialize_session. -/
def deserializeConsole (console : List ConsoleType) : List CellOutput :=
  console.map fun c =>
    match c with
    | ConsoleType.streamMedia mt d =>
        { channel := CellChannel.MEDIA, mimetype := mt,
          data := OutputData.str d }
    | ConsoleType.stream name text =>
        { channel :=
            if name = "stderr" then CellChannel.STDERR
            else CellChannel.STDOUT,
          mimetype := "text/plain", data := OutputData.str text }

/-- serialize.deserialize_session: build a fresh SessionView whose
cell_operations dict maps each cached cell id to the reconstructed
CellOp. -/
def deserialize_session (session : NotebookSessionV1) : SessionView :=
  { cell_operations :=
      session.cells.foldl
        (fun ops cell =>
          let cell_outputs := deserializeOutputs cell.outputs
          let console_outputs := deserializeConsole cell.console
          aset ops cell.id
            { cell_id := cell.id, status := some "idle",
              output := cell_outputs.head?, console := console_outputs,
              timestamp := 0 })
        [] }

/-- Model of serialize.SessionCacheManager restricted to the state
read_session_view uses: the current session view and the optional
notebook path. -/
structure SessionCacheManager where
  session_view : SessionView
  path : Option String
deriving DecidableEq, Repr

/-- What reading and parsing the cache file can yield: the file does not
exist, it exists but reading or JSON-parsing it fails, or it parses to a
document. -/
inductive CacheFileRead where
| missing
| unreadable
| parsed (doc : NotebookSessionV1)
deriving DecidableEq, Repr

/-- SessionCacheManager.read_session_view. The filesystem is external; it
is passed in as `fs`, mapping the cache-file path (computed from the
notebook path by `cacheFileOf`, modelling get_session_cache_file) to what
reading it yields. No path, a missing file, a read/parse failure, and a
cache miss all return the in-memory view unchanged; only a cache hit
replaces the manager's session view with the deserialized document. -/
def read_session_view (md5 : String → String)
    (cacheFileOf : String → String) (fs : String → CacheFileRead)
    (mgr : SessionCacheManager) (key : SessionCacheKey) :
    SessionCacheManager × SessionView :=
  match mgr.path with
  | none => (mgr, mgr.session_view)
  | some p =>
      match fs (cacheFileOf p) with
      | CacheFileRead.missing => (mgr, mgr.session_view)
      | CacheFileRead.unreadable => (mgr, mgr.session_view)
      | CacheFileRead.parsed notebook_session =>
          if is_cache_hit md5 notebook_session key = false then
            (mgr, mgr.session_view)
          else
            let v := deserialize_session notebook_session
            ({ mgr with session_view := v }, v)

/-- The live sessions of the manager whose resolved file path equals the
target: the sessions that survive the dead-kernel cleanup (kernel task
absent or alive) and match the path. Used to state the edit-mode
resumption policy. -/
def liveMatching (sm : SessionManager) (target : String) :
    List (String × Session) :=
  sm.sessions.filter fun p =>
    (¬ p.2.kernel_task = some false) ∧ p.2.path = some target

/-
Concrete fixtures used by witnesses and counterexamples.
-/

/-- An OPEN consumer with id "a". -/
def consA : SessionConsumer :=
  { oid := 1, consumer_id := "a", connState := ConnectionState.OPEN,
    stopRaises := false }

/-- An OPEN consumer with id "b". -/
def consB : SessionConsumer :=
  { oid := 2, consumer_id := "b", connState := ConnectionState.OPEN,
    stopRaises := false }

/-- A CLOSED consumer with id "c". -/
def consC : SessionConsumer :=
  { oid := 3, consumer_id := "c", connState := ConnectionState.CLOSED,
    stopRaises := false }

/-- A room whose main consumer is consA, with consA registered. -/
def roomA : Room :=
  { main_consumer := some consA, consumers := [(consA, "a")],
    disposables := [(consA, 5)] }

/-- A room with no main consumer and no members. -/
def roomEmpty : Room :=
  { main_consumer := none, consumers := [], disposables := [] }

/-- A room with main consumer consA and members consA, consB, consC. -/
def roomABC : Room :=
  { main_consumer := some consA,
    consumers := [(consA, "a"), (consB, "b"), (consC, "c")],
    disposables := [(consA, 5), (consB, 6), (consC, 7)] }

/-- A session with one main consumer, a started live kernel, a heartbeat
task and a cache manager. -/
def sessA : Session :=
  { path := some "/nb.py", kernel_task := some true, _closed := false,
    room := roomA, control_queue := [], set_ui_element_queue := [],
    session_view_requests := [], has_heartbeat_task := true,
    has_session_cache_manager := true }

/-- A session with main consumer consA and kiosk consumers consB, consC,
used to exercise request propagation. -/
def sessB : Session :=
  { path := some "/nb.py", kernel_task := some true, _closed := false,
    room := roomABC, control_queue := [], set_ui_element_queue := [],
    session_view_requests := [], has_heartbeat_task := false,
    has_session_cache_manager := false }

/-- An orphaned run-mode session holding a kiosk consumer whose consumer
id is "sid2"; the session itself is stored under a different key. -/
def sessKiosk : Session :=
  { path := some "/nb.py", kernel_task := some true, _closed := false,
    room := { main_consumer := none, consumers := [(consB, "sid2")],
              disposables := [(consB, 6)] },
    control_queue := [], set_ui_element_queue := [],
    session_view_requests := [], has_heartbeat_task := false,
    has_session_cache_manager := false }

/-- A run-mode manager whose only session is stored under key "k1". -/
def smRun : SessionManager :=
  { mode := SessionMode.RUN, sessions := [("k1", sessKiosk)] }

/-- An edit-mode session with a dead kernel, no main consumer and not yet
closed: it reports ORPHANED but is garbage-collected by
maybe_resume_session. -/
def sessDeadOrphan : Session :=
  { path := some "/nb.py", kernel_task := some false, _closed := false,
    room := roomEmpty, control_queue := [], set_ui_element_queue := [],
    session_view_requests := [], has_heartbeat_task := false,
    has_session_cache_manager := false }

/-- An edit-mode manager whose only session is the dead orphan. -/
def smEdit1 : SessionManager :=
  { mode := SessionMode.EDIT, sessions := [("s1", sessDeadOrphan)] }

/-- An edit-mode session with a live kernel, no main consumer and not yet
closed: a resumable ORPHANED session. -/
def sessLiveOrphan : Session :=
  { path := some "/nb.py", kernel_task := some true, _closed := false,
    room := roomEmpty, control_queue := [], set_ui_element_queue := [],
    session_view_requests := [], has_heartbeat_task := false,
    has_session_cache_manager := false }

/-- An edit-mode manager whose only session is the live orphan, stored
under key "s1". -/
def smEdit2 : SessionManager :=
  { mode := SessionMode.EDIT, sessions := [("s1", sessLiveOrphan)] }

/-- An empty parsed cache document matching version 0.1. -/
def docEmpty : NotebookSessionV1 :=
  { version := "1", marimo_version := "0.1", cells := [] }

/-- A cache manager with an empty in-memory view and a path. -/
def mgrA : SessionCacheManager :=
  { session_view := { cell_operations := [] }, path := some "/nb.py" }

/-- Number of stop-hook events for a given consumer oid. -/
def countStop (ev : List Event) (oid : Nat) : Nat :=
  ev.countP fun e =>
    match e with
    | Event.stop o => o == oid
    | _ => false

/-- Number of disposal-callback events for a given consumer oid. -/
def countDispose (ev : List Event) (oid : Nat) : Nat :=
  ev.countP fun e =>
    match e with
    | Event.dispose o _ => o == oid
    | _ => false

/-
Theorems. Each claim Ci of the specification is settled by one theorem
(plus, where needed, a witness or a counterexample) below.
-/

/-- C2: is_cache_hit returns true if and only if the key has as many codes
as the document has cells, every code hash matches the corresponding
cell's recorded code_hash position by position (List.Forall₂), and the
key's marimo version equals the document's recorded version; hence any
single mismatch yields a full cache miss. -/
theorem is_cache_hit_spec (md5 : String → String) (ns : NotebookSessionV1)
    (key : SessionCacheKey) :
    is_cache_hit md5 ns key = true ↔
      key.codes.length = ns.cells.length
        ∧ List.Forall₂ (fun code cell => hash_code md5 code = cell.code_hash)
            key.codes ns.cells
        ∧ key.marimo_version = ns.marimo_version := by
  constructor
  · intro h
    rw [is_cache_hit] at h
    split_ifs at h with h1 h2
    simp only [Bool.or_eq_true, bne_iff_ne, ne_eq, List.any_eq_true,
      not_or, not_exists, not_and, not_not] at h1 h2
    obtain ⟨hlen, hall⟩ := h1
    refine ⟨hlen, ?_, h2⟩
    exact List.forall₂_iff_zip.mpr ⟨hlen, fun hmem => hall _ hmem⟩
  · rintro ⟨hlen, hf, hv⟩
    rw [is_cache_hit]
    have hany : ((key.codes.zip ns.cells).any fun p =>
        hash_code md5 p.1 != p.2.code_hash) = false := by
      simp only [List.any_eq_false, bne_iff_ne, ne_eq, not_not]
      rintro ⟨a, b⟩ hp
      exact List.forall₂_zip hf hp
    simp [hlen, hv, hany]

/-- Replacing a code by another code with the same hash image leaves the
positional hash comparison of is_cache_hit unchanged. -/
theorem any_zip_hash_congr (md5 : String → String) :
    ∀ (cs cs' : List (Option String)) (cells : List SessionCell),
      cs.map (hash_code md5) = cs'.map (hash_code md5) →
      ((cs.zip cells).any fun p => hash_code md5 p.1 != p.2.code_hash)
        = ((cs'.zip cells).any fun p =>
            hash_code md5 p.1 != p.2.code_hash) := by
  intro cs
  induction cs with
  | nil =>
      intro cs' cells h
      have : cs' = [] := by
        cases cs' with
        | nil => rfl
        | cons a l => simp at h
      subst this
      rfl
  | cons c cs ih =>
      intro cs' cells h
      cases cs' with
      | nil => simp at h
      | cons c' cs'' =>
          simp only [List.map_cons, List.cons.injEq] at h
          cases cells with
          | nil => rfl
          | cons cell cells' =>
              simp only [List.zip_cons_cons, List.any_cons]
              rw [h.1, ih cs'' cells' h.2]

/-- Setting position i of a code list to `some ""` does not change the
hash images when position i previously held `none`. -/
theorem map_hash_set_empty (md5 : String → String) :
    ∀ (l : List (Option String)) (i : Nat), l.get? i = some none →
      (l.set i (some "")).map (hash_code md5) = l.map (hash_code md5) := by
  intro l
  induction l with
  | nil => intro i h; cases h
  | cons a l ih =>
      intro i h
      cases i with
      | zero =>
          simp only [List.get?_cons_zero, Option.some.injEq] at h
          subst h
          simp [hash_code]
      | succ n =>
          simp only [List.get?_cons_succ] at h
          simp only [List.set_cons_succ, List.map_cons]
          rw [ih n h]

/-- C10: the code-hash function maps both a missing code and an empty
code to the null hash, so a cached cell with a null code_hash matches
both; consequently replacing a missing code at any position of the key by
the empty code (or vice versa) leaves the is_cache_hit verdict unchanged
for every document. -/
theorem null_hash_matches_none_and_empty (md5 : String → String)
    (ns : NotebookSessionV1) (key : SessionCacheKey) (i : Nat)
    (hi : key.codes.get? i = some none) :
    hash_code md5 none = none
      ∧ hash_code md5 (some "") = none
      ∧ is_cache_hit md5 ns
          { key with codes := key.codes.set i (some "") }
          = is_cache_hit md5 ns key := by
  refine ⟨rfl, rfl, ?_⟩
  have hmap := map_hash_set_empty md5 key.codes i hi
  have hlen : (key.codes.set i (some "")).length = key.codes.length :=
    List.length_set ..
  rw [is_cache_hit, is_cache_hit]
  simp only
  rw [hlen, any_zip_hash_congr md5 (key.codes.set i (some "")) key.codes
    ns.cells hmap]

/-- C10 witness: a concrete two-cell document whose second cell has a null
code_hash; the key with a missing second code and the key with an empty
second code get the same verdict. -/
theorem null_hash_matches_none_and_empty_witness :
    hash_code (fun s => s) none = none
      ∧ hash_code (fun s => s) (some "") = none
      ∧ is_cache_hit (fun s => s)
          { version := "1", marimo_version := "0.1",
            cells := [{ id := "c1", code_hash := some "x=1", outputs := [],
                        console := [] },
                      { id := "c2", code_hash := none, outputs := [],
                        console := [] }] }
          { codes := ([some "x=1", none] : List (Option String)).set 1
              (some ""), marimo_version := "0.1" }
          = is_cache_hit (fun s => s)
              { version := "1", marimo_version := "0.1",
                cells := [{ id := "c1", code_hash := some "x=1",
                            outputs := [], console := [] },
                          { id := "c2", code_hash := none, outputs := [],
                            console := [] }] }
              { codes := [some "x=1", none], marimo_version := "0.1" } :=
  null_hash_matches_none_and_empty (fun s => s)
    { version := "1", marimo_version := "0.1",
      cells := [{ id := "c1", code_hash := some "x=1", outputs := [],
                  console := [] },
                { id := "c2", code_hash := none, outputs := [],
                  console := [] }] }
    { codes := [some "x=1", none], marimo_version := "0.1" } 1 (by decide)

/-- C5: broadcast delivers the operation exactly to the consumers of the
room that are in the OPEN state and whose consumer id does not match the
excluded id; only the given operation is ever delivered; an empty room
yields zero deliveries. -/
theorem broadcast_spec (r : Room) (op : MessageOperation)
    (exc : Option String) :
    (∀ c : SessionConsumer,
        (c, op) ∈ r.broadcast op exc ↔
          (∃ cid, (c, cid) ∈ r.consumers)
            ∧ c.connState = ConnectionState.OPEN
            ∧ exc ≠ some c.consumer_id)
      ∧ (∀ c o, (c, o) ∈ r.broadcast op exc → o = op)
      ∧ (r.consumers = [] → r.broadcast op exc = []) := by
  refine ⟨?_, ?_, ?_⟩
  · intro c
    constructor
    · intro hmem
      rw [Room.broadcast, List.mem_filterMap] at hmem
      obtain ⟨⟨c0, cid⟩, hin, hf⟩ := hmem
      by_cases h1 : some c0.consumer_id = exc
      · simp [h1] at hf
      · by_cases h2 : c0.connState = ConnectionState.OPEN
        · simp only [h1, if_false, h2, if_true, if_neg h1, if_pos h2,
            Option.some.injEq, Prod.mk.injEq] at hf
          obtain ⟨hc, _⟩ := hf
          subst hc
          exact ⟨⟨cid, hin⟩, h2, fun h => h1 h.symm⟩
        · simp [h1, h2] at hf
    · rintro ⟨⟨cid, hin⟩, hopen, hexc⟩
      rw [Room.broadcast, List.mem_filterMap]
      refine ⟨(c, cid), hin, ?_⟩
      rw [if_neg (fun h => hexc h.symm), if_pos hopen]
  · intro c o hmem
    rw [Room.broadcast, List.mem_filterMap] at hmem
    obtain ⟨⟨c0, cid⟩, _, hf⟩ := hmem
    by_cases h1 : some c0.consumer_id = exc
    · simp [h1] at hf
    · by_cases h2 : c0.connState = ConnectionState.OPEN
      · simp only [if_neg h1, if_pos h2, Option.some.injEq,
          Prod.mk.injEq] at hf
        exact hf.2.symm
      · simp [h1, h2] at hf
  · intro h
    rw [Room.broadcast, h]
    rfl

/-- C5 witness: in a concrete room with an OPEN consumer b, a CLOSED
consumer c and an OPEN originator a, broadcasting except a delivers to b,
and the empty room delivers to nobody. -/
theorem broadcast_spec_witness :
    (({ oid := 2, consumer_id := "b", connState := ConnectionState.OPEN,
        stopRaises := false : SessionConsumer }, MessageOperation.reload)
      ∈ Room.broadcast
          { main_consumer := none,
            consumers :=
              [({ oid := 1, consumer_id := "a",
                  connState := ConnectionState.OPEN, stopRaises := false }, "a"),
               ({ oid := 2, consumer_id := "b",
                  connState := ConnectionState.OPEN, stopRaises := false }, "b"),
               ({ oid := 3, consumer_id := "c",
                  connState := ConnectionState.CLOSED, stopRaises := false }, "c")],
            disposables := [] }
          MessageOperation.reload (some "a"))
      ∧ Room.broadcast
          { main_consumer := none, consumers := [], disposables := [] }
          MessageOperation.reload (some "a") = [] := by
  constructor
  · exact ((broadcast_spec
      { main_consumer := none,
        consumers :=
          [({ oid := 1, consumer_id := "a",
              connState := ConnectionState.OPEN, stopRaises := false }, "a"),
           ({ oid := 2, consumer_id := "b",
              connState := ConnectionState.OPEN, stopRaises := false }, "b"),
           ({ oid := 3, consumer_id := "c",
              connState := ConnectionState.CLOSED, stopRaises := false }, "c")],
        disposables := [] }
      MessageOperation.reload (some "a")).1
      { oid := 2, consumer_id := "b", connState := ConnectionState.OPEN,
        stopRaises := false }).mpr
      ⟨⟨"b", by decide⟩, rfl, by decide⟩
  · exact (broadcast_spec
      { main_consumer := none, consumers := [], disposables := [] }
      MessageOperation.reload (some "a")).2.2 rfl

/-- C3 counterexample: with a main consumer already present, adding a
second main consumer does raise, but the consumer map has already been
mutated at that point — the claim that the consumer and disposable maps
are unchanged when the failure is raised is false on the code. -/
theorem add_consumer_mutates_before_raise_counterexample :
    (Room.add_consumer roomA consB 2 "b" true).2 = true
      ∧ (Room.add_consumer roomA consB 2 "b" true).1.consumers
          ≠ roomA.consumers
      ∧ (Room.add_consumer roomA consB 2 "b" true).1.disposables
          ≠ roomA.disposables := by
  decide

/-- C3 amended: adding a second main consumer while one exists raises,
but only after the consumer and disposable maps have been mutated (the
new consumer has been inserted into both); the main-consumer slot itself
is left unchanged. -/
theorem add_consumer_second_main_raises (r : Room) (c : SessionConsumer)
    (d : Nat) (cid : String) (h : r.main_consumer.isSome = true) :
    Room.add_consumer r c d cid true =
      ({ main_consumer := r.main_consumer,
         consumers := cset r.consumers c cid,
         disposables := cset r.disposables c d }, true) := by
  rw [Room.add_consumer]
  simp [h]

/-- C3 witness: the amended statement at the concrete counterexample
room. -/
theorem add_consumer_second_main_raises_witness :
    Room.add_consumer roomA consB 2 "b" true =
      ({ main_consumer := roomA.main_consumer,
         consumers := cset roomA.consumers consB "b",
         disposables := cset roomA.disposables consB 2 }, true) :=
  add_consumer_second_main_raises roomA consB 2 "b" (by decide)

/-- A consumer whose oid does not occur among a dict's keys is not found
in it. -/
theorem cfind_eq_none_of_not_mem {α : Type} :
    ∀ (m : List (SessionConsumer × α)) (c : SessionConsumer),
      c.oid ∉ (m.map fun p => p.1.oid) → cfind m c = none := by
  intro m
  induction m with
  | nil => intro c _; rfl
  | cons p rest ih =>
      intro c h
      simp only [List.map_cons, List.mem_cons, not_or] at h
      rw [cfind, if_neg (fun he => h.1 he.symm)]
      exact ih c h.2

/-- Popping a consumer returns exactly what lookup finds. -/
theorem cpop_fst_eq_cfind {α : Type} :
    ∀ (m : List (SessionConsumer × α)) (c : SessionConsumer),
      (cpop m c).1 = cfind m c := by
  intro m
  induction m with
  | nil => intro c; rfl
  | cons p rest ih =>
      intro c
      rw [cpop, cfind]
      by_cases h : p.1.oid = c.oid
      · simp [h]
      · simp [h, ih c]

/-- After popping a consumer from a dict with distinct keys, it is no
longer found. -/
theorem cfind_cpop_self {α : Type} :
    ∀ (m : List (SessionConsumer × α)) (c : SessionConsumer),
      (m.map fun p => p.1.oid).Nodup → cfind (cpop m c).2 c = none := by
  intro m
  induction m with
  | nil => intro c _; rfl
  | cons p rest ih =>
      intro c h
      simp only [List.map_cons, List.nodup_cons] at h
      rw [cpop]
      by_cases he : p.1.oid = c.oid
      · simp only [if_pos he]
        exact cfind_eq_none_of_not_mem rest c (he ▸ h.1)
      · simp only [if_neg he]
        rw [cfind, if_neg he]
        exact ih c h.2

/-- C8: removing a consumer that is in the room invokes its stop hook and
then its disposal callback, each exactly once (the event list is exactly
stop-then-dispose, produced even when the stop hook raises — the returned
raise flag equals the consumer's stopRaises); the consumer is gone from
both maps afterwards; and the main slot is cleared exactly when the
removed consumer was the main consumer. -/
theorem remove_consumer_spec (r : Room) (c : SessionConsumer)
    (hmem : cmem r.consumers c = true)
    (hdis : (cfind r.disposables c).isSome = true)
    (hnc : (r.consumers.map fun p => p.1.oid).Nodup)
    (hnd : (r.disposables.map fun p => p.1.oid).Nodup) :
    ∃ d r2,
      Room.remove_consumer r c =
          (r2, [Event.stop c.oid, Event.dispose c.oid d], c.stopRaises)
        ∧ cfind r2.consumers c = none
        ∧ cfind r2.disposables c = none
        ∧ r2.main_consumer =
            (match r.main_consumer with
             | some m => if m.oid = c.oid then none else some m
             | none => none) := by
  obtain ⟨d, hd⟩ := Option.isSome_iff_exists.mp hdis
  have hpop : (cpop r.disposables c).1 = some d := by
    rw [cpop_fst_eq_cfind]; exact hd
  have hne : ¬ (cmem r.consumers c = false) := by simp [hmem]
  refine ⟨d,
    { main_consumer :=
        match r.main_consumer with
        | some m => if m.oid = c.oid then none else some m
        | none => none,
      consumers := (cpop r.consumers c).2,
      disposables := (cpop r.disposables c).2 }, ?_,
    cfind_cpop_self r.consumers c hnc,
    cfind_cpop_self r.disposables c hnd, rfl⟩
  rw [Room.remove_consumer, if_neg hne]
  simp only [hpop]

/-- C8 witness: removing the main consumer of a concrete one-consumer
room runs stop then dispose once each, empties both maps, and clears the
main slot. -/
theorem remove_consumer_spec_witness :
    ∃ d r2,
      Room.remove_consumer roomA consA =
          (r2, [Event.stop consA.oid, Event.dispose consA.oid d],
           consA.stopRaises)
        ∧ cfind r2.consumers consA = none
        ∧ cfind r2.disposables consA = none
        ∧ r2.main_consumer =
            (match roomA.main_consumer with
             | some m => if m.oid = consA.oid then none else some m
             | none => none) :=
  remove_consumer_spec roomA consA (by decide) (by decide) (by decide)
    (by decide)

/-- Popping one consumer leaves lookups of consumers with other oids
unchanged. -/
theorem cfind_cpop_ne {α : Type} :
    ∀ (m : List (SessionConsumer × α)) (c c' : SessionConsumer),
      c'.oid ≠ c.oid → cfind (cpop m c).2 c' = cfind m c' := by
  intro m
  induction m with
  | nil => intro c c' _; rfl
  | cons p rest ih =>
      intro c c' h
      rw [cpop]
      by_cases he : p.1.oid = c.oid
      · simp only [if_pos he]
        rw [cfind, if_neg (fun hk => h (by rw [← hk, he]))]
      · simp only [if_neg he]
        rw [cfind, cfind]
        by_cases hk : p.1.oid = c'.oid
        · simp [hk]
        · simp only [if_neg hk]
          exact ih c c' h

/-- Event lists whose stop/dispose events all concern other oids have no
stop or dispose events for this oid. -/
theorem counts_zero_of_oid_not_mem (ev : List Event) (oids : List Nat)
    (o : Nat)
    (hev : ∀ e ∈ ev, ∃ w, w ∈ oids
      ∧ (e = Event.stop w ∨ ∃ dd, e = Event.dispose w dd))
    (ho : o ∉ oids) : countStop ev o = 0 ∧ countDispose ev o = 0 := by
  constructor
  · rw [countStop, List.countP_eq_zero]
    intro e he
    obtain ⟨w, hw, hcase⟩ := hev e he
    rcases hcase with rfl | ⟨dd, rfl⟩
    · simp only [beq_iff_eq]
      exact fun h => ho (h ▸ hw)
    · simp
  · rw [countDispose, List.countP_eq_zero]
    intro e he
    obtain ⟨w, hw, hcase⟩ := hev e he
    rcases hcase with rfl | ⟨dd, rfl⟩
    · simp
    · simp only [beq_iff_eq]
      exact fun h => ho (h ▸ hw)

/-- Behaviour of the Room.close loop on a room whose consumers have
distinct identities, all with registered disposables and none with a
raising stop hook: no exception escapes, every recorded event is a
stop or dispose of one of the room's consumers, and each consumer gets
exactly one stop and one dispose event. -/
theorem closeLoop_spec :
    ∀ (cs : List SessionConsumer) (dis : List (SessionConsumer × Nat)),
      (cs.map fun c => c.oid).Nodup →
      (∀ c ∈ cs, (cfind dis c).isSome = true) →
      (∀ c ∈ cs, c.stopRaises = false) →
      (closeLoop dis cs).2.2 = false
        ∧ (∀ e ∈ (closeLoop dis cs).2.1,
            ∃ o, o ∈ cs.map (fun c => c.oid)
              ∧ (e = Event.stop o ∨ ∃ dd, e = Event.dispose o dd))
        ∧ (∀ c ∈ cs, countStop (closeLoop dis cs).2.1 c.oid = 1
              ∧ countDispose (closeLoop dis cs).2.1 c.oid = 1) := by
  intro cs
  induction cs with
  | nil =>
      intro dis _ _ _
      refine ⟨rfl, ?_, ?_⟩
      · intro e he; cases he
      · intro c hc; cases hc
  | cons c rest ih =>
      intro dis hn hdis hnr
      simp only [List.map_cons, List.nodup_cons] at hn
      obtain ⟨d, hd⟩ := Option.isSome_iff_exists.mp
        (hdis c (List.mem_cons_self c rest))
      have hpop : (cpop dis c).1 = some d := by
        rw [cpop_fst_eq_cfind]; exact hd
      have hstop : c.stopRaises = false := hnr c (List.mem_cons_self c rest)
      have hoids : ∀ c' ∈ rest, c'.oid ≠ c.oid := by
        intro c' hc' he
        exact hn.1 (he ▸ List.mem_map_of_mem (fun x => x.oid) hc')
      have hdis' : ∀ c' ∈ rest, (cfind (cpop dis c).2 c').isSome = true := by
        intro c' hc'
        rw [cfind_cpop_ne dis c c' (hoids c' hc')]
        exact hdis c' (List.mem_cons_of_mem c hc')
      have hnr' : ∀ c' ∈ rest, c'.stopRaises = false := fun c' hc' =>
        hnr c' (List.mem_cons_of_mem c hc')
      obtain ⟨ihr, ihe, ihc⟩ := ih (cpop dis c).2 hn.2 hdis' hnr'
      have hunfold : closeLoop dis (c :: rest) =
          ((closeLoop (cpop dis c).2 rest).1,
           Event.stop c.oid :: Event.dispose c.oid d
             :: (closeLoop (cpop dis c).2 rest).2.1,
           (closeLoop (cpop dis c).2 rest).2.2) := by
        rw [closeLoop]
        simp only [hpop, hstop]
        rfl
      rw [hunfold]
      refine ⟨ihr, ?_, ?_⟩
      · intro e he
        rcases List.mem_cons.mp he with rfl | he
        · exact ⟨c.oid, List.mem_cons_self _ _, Or.inl rfl⟩
        rcases List.mem_cons.mp he with rfl | he
        · exact ⟨c.oid, List.mem_cons_self _ _, Or.inr ⟨d, rfl⟩⟩
        · obtain ⟨o, ho, hoe⟩ := ihe e he
          exact ⟨o, List.mem_cons_of_mem _ ho, hoe⟩
      · intro c' hc'
        have hzero := counts_zero_of_oid_not_mem
          (closeLoop (cpop dis c).2 rest).2.1 (rest.map fun x => x.oid)
          c.oid ihe hn.1
        rcases List.mem_cons.mp hc' with rfl | hc'
        · constructor
          · rw [countStop, List.countP_cons, List.countP_cons]
            have h0 := hzero.1
            rw [countStop] at h0
            simp [h0]
          · rw [countDispose, List.countP_cons, List.countP_cons]
            have h0 := hzero.2
            rw [countDispose] at h0
            simp [h0]
        · have hne : c'.oid ≠ c.oid := hoids c' hc'
          have hb : (c.oid == c'.oid) = false := by
            simp only [beq_eq_false_iff_ne, ne_eq]
            exact fun h => hne h.symm
          obtain ⟨ih1, ih2⟩ := ihc c' hc'
          constructor
          · rw [countStop, List.countP_cons, List.countP_cons]
            rw [countStop] at ih1
            simp [ih1, hb]
          · rw [countDispose, List.countP_cons, List.countP_cons]
            rw [countDispose] at ih2
            simp [ih2, hb]

/-- countStop distributes over list append. -/
theorem countStop_append (a b : List Event) (o : Nat) :
    countStop (a ++ b) o = countStop a o + countStop b o := by
  simp [countStop, List.countP_append]

/-- countDispose distributes over list append. -/
theorem countDispose_append (a b : List Event) (o : Nat) :
    countDispose (a ++ b) o = countDispose a o + countDispose b o := by
  simp [countDispose, List.countP_append]

/-- An event list consisting only of stop/dispose events contains none of
the four session-level teardown events. -/
theorem session_counts_zero (a : List Event)
    (h : ∀ e ∈ a, (∃ o, e = Event.stop o) ∨ ∃ o dd, e = Event.dispose o dd) :
    a.count Event.distributorStop = 0
      ∧ a.count Event.heartbeatCancel = 0
      ∧ a.count Event.cacheStop = 0
      ∧ a.count Event.kernelClose = 0 := by
  refine ⟨?_, ?_, ?_, ?_⟩ <;>
    · rw [List.count_eq_zero]
      intro hmem
      rcases h _ hmem with ⟨o, ho⟩ | ⟨o, dd, ho⟩ <;> cases ho

/-- C4: closing a not-yet-closed session (with a started kernel, distinct
consumer identities, registered disposables and non-raising consumer stop
hooks) does not raise; the closed session reports CLOSED; closing it a
second time is a no-op that performs no further teardown and does not
raise; and each resource is released exactly once — one distributor stop,
one kernel close, one heartbeat cancellation and one cache-writer stop
when those exist, and exactly one stop and one dispose per room
consumer. -/
theorem session_close_idempotent (s : Session)
    (hopen : s._closed = false)
    (hk : s.kernel_task.isNone = false)
    (hn : (s.room.consumers.map fun p => p.1.oid).Nodup)
    (hdis : ∀ p ∈ s.room.consumers,
      (cfind s.room.disposables p.1).isSome = true)
    (hnr : ∀ p ∈ s.room.consumers, p.1.stopRaises = false) :
    (s.close).2.2 = false
      ∧ (s.close).1.connection_state = ConnectionState.CLOSED
      ∧ (s.close).1.close = ((s.close).1, [], false)
      ∧ (s.close).2.1.count Event.distributorStop = 1
      ∧ (s.close).2.1.count Event.kernelClose = 1
      ∧ (s.close).2.1.count Event.heartbeatCancel
          = (if s.has_heartbeat_task then 1 else 0)
      ∧ (s.close).2.1.count Event.cacheStop
          = (if s.has_session_cache_manager then 1 else 0)
      ∧ (∀ p ∈ s.room.consumers,
          countStop (s.close).2.1 p.1.oid = 1
            ∧ countDispose (s.close).2.1 p.1.oid = 1) := by
  have hn' : ((s.room.consumers.map Prod.fst).map fun c => c.oid).Nodup := by
    rw [List.map_map]; exact hn
  have hdis' : ∀ c ∈ s.room.consumers.map Prod.fst,
      (cfind s.room.disposables c).isSome = true := by
    intro c hc
    obtain ⟨p, hp, rfl⟩ := List.mem_map.mp hc
    exact hdis p hp
  have hnr' : ∀ c ∈ s.room.consumers.map Prod.fst,
      c.stopRaises = false := by
    intro c hc
    obtain ⟨p, hp, rfl⟩ := List.mem_map.mp hc
    exact hnr p hp
  obtain ⟨hr, hev, hcount⟩ := closeLoop_spec
    (s.room.consumers.map Prod.fst) s.room.disposables hn' hdis' hnr'
  have hclose : s.close =
      ({ s with
         _closed := true,
         room := {
           main_consumer := none,
           consumers := [],
           disposables := (closeLoop s.room.disposables
             (s.room.consumers.map Prod.fst)).1 } },
       (closeLoop s.room.disposables (s.room.consumers.map Prod.fst)).2.1
         ++ ([Event.distributorStop]
              ++ (if s.has_heartbeat_task then [Event.heartbeatCancel]
                  else [])
              ++ (if s.has_session_cache_manager then [Event.cacheStop]
                  else []))
         ++ [Event.kernelClose], false) := by
    rw [Session.close]
    simp only [hopen, Bool.false_eq_true, if_false, Room.close, hr, hk]
  have hpure : ∀ e ∈ (closeLoop s.room.disposables
      (s.room.consumers.map Prod.fst)).2.1,
      (∃ o, e = Event.stop o) ∨ ∃ o dd, e = Event.dispose o dd := by
    intro e he
    obtain ⟨o, _, hoe⟩ := hev e he
    rcases hoe with hoe | ⟨dd, hoe⟩
    · exact Or.inl ⟨o, hoe⟩
    · exact Or.inr ⟨o, dd, hoe⟩
  obtain ⟨hz1, hz2, hz3, hz4⟩ := session_counts_zero _ hpure
  refine ⟨by rw [hclose], ?_, ?_, ?_, ?_, ?_, ?_, ?_⟩
  · rw [hclose]; rfl
  · rw [hclose, Session.close]; rfl
  · rw [hclose]
    simp only [List.count_append, hz1]
    by_cases h1 : s.has_heartbeat_task <;>
      by_cases h2 : s.has_session_cache_manager <;>
        simp [h1, h2, List.count_cons, List.count_nil]
  · rw [hclose]
    simp only [List.count_append, hz4]
    by_cases h1 : s.has_heartbeat_task <;>
      by_cases h2 : s.has_session_cache_manager <;>
        simp [h1, h2, List.count_cons, List.count_nil]
  · rw [hclose]
    simp only [List.count_append, hz2]
    by_cases h1 : s.has_heartbeat_task <;>
      by_cases h2 : s.has_session_cache_manager <;>
        simp [h1, h2, List.count_cons, List.count_nil]
  · rw [hclose]
    simp only [List.count_append, hz3]
    by_cases h1 : s.has_heartbeat_task <;>
      by_cases h2 : s.has_session_cache_manager <;>
        simp [h1, h2, List.count_cons, List.count_nil]
  · intro p hp
    have hc := hcount p.1 (List.mem_map_of_mem Prod.fst hp)
    rw [hclose]
    constructor
    · rw [countStop_append, countStop_append, hc.1]
      by_cases h1 : s.has_heartbeat_task <;>
        by_cases h2 : s.has_session_cache_manager <;>
          simp [h1, h2, countStop, List.countP_cons]
    · rw [countDispose_append, countDispose_append, hc.2]
      by_cases h1 : s.has_heartbeat_task <;>
        by_cases h2 : s.has_session_cache_manager <;>
          simp [h1, h2, countDispose, List.countP_cons]

/-- C4 witness: the close behaviour at a concrete live session with one
main consumer, a heartbeat task and a cache manager. -/
theorem session_close_idempotent_witness :
    (sessA.close).2.2 = false
      ∧ (sessA.close).1.connection_state = ConnectionState.CLOSED
      ∧ (sessA.close).1.close = ((sessA.close).1, [], false)
      ∧ (sessA.close).2.1.count Event.distributorStop = 1
      ∧ (sessA.close).2.1.count Event.kernelClose = 1
      ∧ (sessA.close).2.1.count Event.heartbeatCancel
          = (if sessA.has_heartbeat_task then 1 else 0)
      ∧ (sessA.close).2.1.count Event.cacheStop
          = (if sessA.has_session_cache_manager then 1 else 0)
      ∧ (∀ p ∈ sessA.room.consumers,
          countStop (sessA.close).2.1 p.1.oid = 1
            ∧ countDispose (sessA.close).2.1 p.1.oid = 1) :=
  session_close_idempotent sessA (by decide) (by decide) (by decide)
    (by decide) (by decide)

/-- Any consumer of the room that is OPEN and not the excluded id
receives a broadcast operation. -/
theorem mem_broadcast_of (r : Room) (op : MessageOperation)
    (exc : Option String) (c : SessionConsumer) (cid : String)
    (hin : (c, cid) ∈ r.consumers)
    (hopen : c.connState = ConnectionState.OPEN)
    (hexc : exc ≠ some c.consumer_id) :
    (c, op) ∈ r.broadcast op exc := by
  rw [Room.broadcast, List.mem_filterMap]
  exact ⟨(c, cid), hin,
    by rw [if_neg (fun h => hexc h.symm), if_pos hopen]⟩

/-- C6: put_control_request appends the request to the control queue and
to the session view request log; it mirrors a set-UI-element request (and
only such a request) to the dedicated UI queue; for a multi-cell
execution request every OPEN non-originator consumer receives the
UpdateCellCodes notice with code_is_stale = false, and additionally the
FocusCell notice when the request has exactly one cell id; requests of
any other kind cause no deliveries. -/
theorem put_control_request_spec (s : Session) (req : ControlRequest)
    (fid : Option String) :
    (s.put_control_request req fid).1.control_queue
        = s.control_queue ++ [req]
      ∧ (s.put_control_request req fid).1.session_view_requests
          = s.session_view_requests ++ [req]
      ∧ (∀ tok, req = ControlRequest.setUIElementValue tok →
          (s.put_control_request req fid).1.set_ui_element_queue
            = s.set_ui_element_queue ++ [req])
      ∧ ((∀ tok, req ≠ ControlRequest.setUIElementValue tok) →
          (s.put_control_request req fid).1.set_ui_element_queue
            = s.set_ui_element_queue)
      ∧ (∀ cell_ids codes,
          req = ControlRequest.executeMultiple cell_ids codes →
          ∀ c cid, (c, cid) ∈ s.room.consumers →
            c.connState = ConnectionState.OPEN →
            fid ≠ some c.consumer_id →
            (c, MessageOperation.updateCellCodes cell_ids codes false)
                ∈ (s.put_control_request req fid).2
              ∧ (∀ cid0, cell_ids = [cid0] →
                  (c, MessageOperation.focusCell cid0)
                    ∈ (s.put_control_request req fid).2))
      ∧ ((∀ cell_ids codes,
            req ≠ ControlRequest.executeMultiple cell_ids codes) →
          (s.put_control_request req fid).2 = []) := by
  refine ⟨?_, ?_, ?_, ?_, ?_, ?_⟩
  · cases req <;> rfl
  · cases req <;> rfl
  · rintro tok rfl; rfl
  · intro h
    cases req with
    | setUIElementValue tok => exact absurd rfl (h tok)
    | executeMultiple a b => rfl
    | creation t => rfl
    | stopRequest => rfl
    | other t => rfl
  · rintro cell_ids codes rfl c cid hin hopen hexc
    constructor
    · exact List.mem_append_left _
        (mem_broadcast_of s.room _ fid c cid hin hopen hexc)
    · rintro cid0 rfl
      exact List.mem_append_right _
        (mem_broadcast_of s.room _ fid c cid hin hopen hexc)
  · intro h
    cases req with
    | executeMultiple a b => exact absurd rfl (h a b)
    | setUIElementValue tok => rfl
    | creation t => rfl
    | stopRequest => rfl
    | other t => rfl

/-- C6 witness: a single-cell execution request from consumer a in a
concrete session delivers both the UpdateCellCodes notice and the
FocusCell notice to the open kiosk consumer b, and the request lands in
the control queue and the view log. -/
theorem put_control_request_spec_witness :
    (sessB.put_control_request
        (ControlRequest.executeMultiple ["c1"] ["x=1"]) (some "a")).1.control_queue
        = sessB.control_queue
            ++ [ControlRequest.executeMultiple ["c1"] ["x=1"]]
      ∧ (sessB.put_control_request
          (ControlRequest.executeMultiple ["c1"] ["x=1"])
          (some "a")).1.session_view_requests
          = sessB.session_view_requests
              ++ [ControlRequest.executeMultiple ["c1"] ["x=1"]]
      ∧ (consB, MessageOperation.updateCellCodes ["c1"] ["x=1"] false)
          ∈ (sessB.put_control_request
              (ControlRequest.executeMultiple ["c1"] ["x=1"]) (some "a")).2
      ∧ (consB, MessageOperation.focusCell "c1")
          ∈ (sessB.put_control_request
              (ControlRequest.executeMultiple ["c1"] ["x=1"]) (some "a")).2 := by
  have h := put_control_request_spec sessB
    (ControlRequest.executeMultiple ["c1"] ["x=1"]) (some "a")
  have hb := h.2.2.2.2.1 ["c1"] ["x=1"] rfl consB "b" (by decide) rfl
    (by decide)
  exact ⟨h.1, h.2.1, hb.1, hb.2 "c1" rfl⟩

/-- C9: read_session_view returns the existing in-memory session view,
with the manager unchanged, whenever the manager has no path, the cache
file does not exist, reading or parsing it fails (the failure is absorbed,
not propagated — the embedding is a total function returning the old
view), or is_cache_hit is false; only on a cache hit does it replace the
manager's session view with the deserialized cached document and return
that. -/
theorem read_session_view_spec (md5 : String → String)
    (cacheFileOf : String → String) (fs : String → CacheFileRead)
    (mgr : SessionCacheManager) (key : SessionCacheKey) :
    (mgr.path = none →
        read_session_view md5 cacheFileOf fs mgr key
          = (mgr, mgr.session_view))
      ∧ (∀ p, mgr.path = some p →
          fs (cacheFileOf p) = CacheFileRead.missing →
          read_session_view md5 cacheFileOf fs mgr key
            = (mgr, mgr.session_view))
      ∧ (∀ p, mgr.path = some p →
          fs (cacheFileOf p) = CacheFileRead.unreadable →
          read_session_view md5 cacheFileOf fs mgr key
            = (mgr, mgr.session_view))
      ∧ (∀ p doc, mgr.path = some p →
          fs (cacheFileOf p) = CacheFileRead.parsed doc →
          is_cache_hit md5 doc key = false →
          read_session_view md5 cacheFileOf fs mgr key
            = (mgr, mgr.session_view))
      ∧ (∀ p doc, mgr.path = some p →
          fs (cacheFileOf p) = CacheFileRead.parsed doc →
          is_cache_hit md5 doc key = true →
          read_session_view md5 cacheFileOf fs mgr key
            = ({ mgr with session_view := deserialize_session doc },
               deserialize_session doc)) := by
  refine ⟨?_, ?_, ?_, ?_, ?_⟩
  · intro hp
    rw [read_session_view]
    simp only [hp]
  · intro p hp hfs
    rw [read_session_view]
    simp only [hp, hfs]
  · intro p hp hfs
    rw [read_session_view]
    simp only [hp, hfs]
  · intro p doc hp hfs hmiss
    rw [read_session_view]
    simp only [hp, hfs, hmiss, if_pos]
  · intro p doc hp hfs hhit
    rw [read_session_view]
    simp only [hp, hfs, hhit]
    rfl

/-- C9 witness: with a filesystem whose cache file parses to an empty
document matching the key, the view is replaced by the deserialized
document; and a manager with no path keeps its view. -/
theorem read_session_view_spec_witness :
    read_session_view (fun s => s) (fun p => p ++ ".json")
        (fun _ => CacheFileRead.parsed docEmpty) mgrA
        { codes := [], marimo_version := "0.1" }
        = ({ mgrA with session_view := deserialize_session docEmpty },
           deserialize_session docEmpty)
      ∧ read_session_view (fun s => s) (fun p => p ++ ".json")
          (fun _ => CacheFileRead.parsed docEmpty)
          { session_view := { cell_operations := [] }, path := none }
          { codes := [], marimo_version := "0.1" }
          = ({ session_view := { cell_operations := [] }, path := none },
             { cell_operations := [] }) := by
  constructor
  · exact (read_session_view_spec (fun s => s) (fun p => p ++ ".json")
      (fun _ => CacheFileRead.parsed docEmpty) mgrA
      { codes := [], marimo_version := "0.1" }).2.2.2.2 "/nb.py" docEmpty
      rfl rfl (by decide)
  · exact (read_session_view_spec (fun s => s) (fun p => p ++ ".json")
      (fun _ => CacheFileRead.parsed docEmpty)
      { session_view := { cell_operations := [] }, path := none }
      { codes := [], marimo_version := "0.1" }).1 rfl

/-- C7 counterexample: in run mode a session can be resumed although no
session exists under the new session id — get_session falls back to a
search over kiosk consumer ids, so the orphaned session stored under key
"k1" is returned for new id "sid2". -/
theorem run_resume_without_id_counterexample :
    alookup smRun.sessions "sid2" = none
      ∧ smRun.maybe_resume_session "sid2" "/nb.py" (fun p => p)
          = MRResult.ok smRun (some sessKiosk) := by
  constructor
  · rfl
  · rfl

/-- C7 amended: in run mode a session is resumed exactly when get_session
(new_id) — a direct lookup by session id, falling back to a search for a
session holding a kiosk consumer with that consumer id — finds a session
whose connection state is ORPHANED; in every other case the result is
None; the session map is never modified and no re-keying occurs. -/
theorem maybe_resume_run_spec (sm : SessionManager) (nid fk : String)
    (ap : String → String) (hmode : sm.mode = SessionMode.RUN) :
    (∀ s, sm.get_session nid = some s →
        (s.connection_state = ConnectionState.ORPHANED →
            sm.maybe_resume_session nid fk ap = MRResult.ok sm (some s))
          ∧ (s.connection_state ≠ ConnectionState.ORPHANED →
            sm.maybe_resume_session nid fk ap = MRResult.ok sm none))
      ∧ (sm.get_session nid = none →
          sm.maybe_resume_session nid fk ap = MRResult.ok sm none) := by
  constructor
  · intro s hs
    constructor
    · intro horph
      rw [SessionManager.maybe_resume_session, if_pos hmode]
      simp only [hs]
      rw [if_pos horph]
    · intro hno
      rw [SessionManager.maybe_resume_session, if_pos hmode]
      simp only [hs]
      rw [if_neg hno]
  · intro hs
    rw [SessionManager.maybe_resume_session, if_pos hmode]
    simp only [hs]

/-- C7 witness: the amended statement resumes the concrete orphaned
kiosk-addressed session. -/
theorem maybe_resume_run_spec_witness :
    smRun.maybe_resume_session "sid2" "/nb.py" (fun p => p)
      = MRResult.ok smRun (some sessKiosk) :=
  ((maybe_resume_run_spec smRun "sid2" "/nb.py" (fun p => p) rfl).1
    sessKiosk rfl).1 rfl

/-- Lookup misses a key that is not among the dict's keys. -/
theorem alookup_not_mem {α : Type} :
    ∀ (m : List (String × α)) (k : String),
      k ∉ m.map Prod.fst → alookup m k = none := by
  intro m
  induction m with
  | nil => intro k _; rfl
  | cons p rest ih =>
      intro k h
      simp only [List.map_cons, List.mem_cons, not_or] at h
      rw [alookup, if_neg (fun he => h.1 he.symm)]
      exact ih k h.2

/-- Lookup over an append tries the left dict first. -/
theorem alookup_append {α : Type} :
    ∀ (a b : List (String × α)) (k : String),
      alookup (a ++ b) k =
        (match alookup a k with
         | some v => some v
         | none => alookup b k) := by
  intro a
  induction a with
  | nil => intro b k; rfl
  | cons p rest ih =>
      intro b k
      rw [List.cons_append, alookup, alookup]
      by_cases h : p.1 = k
      · simp [h]
      · simp only [if_neg h]
        exact ih b k

/-- Lookup after assignment at the same key yields the new value. -/
theorem alookup_aset_self {α : Type} :
    ∀ (m : List (String × α)) (k : String) (v : α),
      alookup (aset m k v) k = some v := by
  intro m
  induction m with
  | nil => intro k v; simp [aset, alookup]
  | cons p rest ih =>
      intro k v
      rw [aset]
      by_cases h : p.1 = k
      · simp [alookup, h]
      · simp only [if_neg h]
        rw [alookup, if_neg h]
        exact ih k v

/-- Lookup after assignment at a different key is unchanged. -/
theorem alookup_aset_ne {α : Type} :
    ∀ (m : List (String × α)) (k k' : String) (v : α), k' ≠ k →
      alookup (aset m k v) k' = alookup m k' := by
  intro m
  induction m with
  | nil =>
      intro k k' v h
      show alookup [(k, v)] k' = (none : Option α)
      rw [alookup, if_neg (fun he => h he.symm)]
      rfl
  | cons p rest ih =>
      intro k k' v h
      rw [aset]
      by_cases hp : p.1 = k
      · rw [if_pos hp, alookup, alookup]
        have hne : ¬ p.1 = k' := fun he => h (he ▸ hp)
        rw [if_neg hne, if_neg hne]
      · rw [if_neg hp, alookup, alookup]
        by_cases hq : p.1 = k'
        · simp [hq]
        · rw [if_neg hq, if_neg hq]
          exact ih k k' v h

/-- Lookup after deletion of a different key is unchanged. -/
theorem alookup_aerase_ne {α : Type} :
    ∀ (m : List (String × α)) (k k' : String), k' ≠ k →
      alookup (aerase m k) k' = alookup m k' := by
  intro m
  induction m with
  | nil => intro k k' _; rfl
  | cons p rest ih =>
      intro k k' h
      rw [aerase, List.filter_cons]
      by_cases hp : p.1 = k
      · have hb : (p.1 != k) = false := by simp [hp]
        rw [hb]
        simp only [Bool.false_eq_true, if_false]
        have hr := ih k k' h
        rw [aerase] at hr
        rw [hr, alookup, if_neg (fun he : p.1 = k' => h (he ▸ hp))]
      · have hb : (p.1 != k) = true := by simp [hp]
        rw [hb, if_pos rfl, alookup, alookup]
        by_cases hq : p.1 = k'
        · simp [hq]
        · rw [if_neg hq, if_neg hq]
          have hr := ih k k' h
          rw [aerase] at hr
          exact hr

/-- In a dict with distinct keys, a member pair is what lookup finds. -/
theorem alookup_of_mem_nodup {α : Type} :
    ∀ (m : List (String × α)) (k : String) (v : α),
      (m.map Prod.fst).Nodup → (k, v) ∈ m → alookup m k = some v := by
  intro m
  induction m with
  | nil => intro k v _ h; cases h
  | cons p rest ih =>
      intro k v hn hmem
      simp only [List.map_cons, List.nodup_cons] at hn
      rcases List.mem_cons.mp hmem with rfl | hmem
      · simp [alookup]
      · rw [alookup]
        by_cases hp : p.1 = k
        · exact absurd (hp ▸ List.mem_map_of_mem Prod.fst hmem) hn.1
        · rw [if_neg hp]
          exact ih k v hn.2 hmem

/-- Deleting a key that is not among the dict's keys changes nothing. -/
theorem aerase_eq_self {α : Type} :
    ∀ (m : List (String × α)) (k : String),
      k ∉ m.map Prod.fst → aerase m k = m := by
  intro m
  induction m with
  | nil => intro k _; rfl
  | cons p rest ih =>
      intro k h
      simp only [List.map_cons, List.mem_cons, not_or] at h
      rw [aerase, List.filter_cons]
      have hb : (p.1 != k) = true := by
        simp only [bne_iff_ne, ne_eq]
        exact fun he => h.1 he.symm
      rw [hb]
      have hr := ih k h.2
      rw [aerase] at hr
      rw [if_pos rfl, hr]

/-- Deleting the head key drops the head. -/
theorem aerase_cons_self {α : Type} (k : String) (v : α)
    (rest : List (String × α)) :
    aerase ((k, v) :: rest) k = aerase rest k := by
  rw [aerase, List.filter_cons]
  simp [aerase]

/-- Assigning a key and then deleting it is the same as deleting it. -/
theorem aerase_aset_self {α : Type} :
    ∀ (m : List (String × α)) (k : String) (v : α),
      aerase (aset m k v) k = aerase m k := by
  intro m
  induction m with
  | nil =>
      intro k v
      show aerase [(k, v)] k = aerase [] k
      rw [aerase_cons_self]
  | cons p rest ih =>
      intro k v
      rw [aset]
      by_cases hp : p.1 = k
      · rw [if_pos hp]
        have h1 : aerase ((p.1, v) :: rest) k = aerase rest k := by
          rw [hp]; exact aerase_cons_self k v rest
        have h2 : aerase ((p.1, p.2) :: rest) k = aerase rest k := by
          rw [hp]; exact aerase_cons_self k p.2 rest
        rw [h1]
        have hpr : (p.1, p.2) :: rest = p :: rest := by rfl
        rw [← hpr, h2]
      · rw [if_neg hp]
        rw [aerase, aerase, List.filter_cons, List.filter_cons]
        have hb : (p.1 != k) = true := by simp [hp]
        rw [hb]
        have hr := ih k v
        rw [aerase, aerase] at hr
        rw [if_pos rfl, if_pos rfl, hr]

/-- Every pair of an assigned dict was already present or is the new
binding. -/
theorem mem_aset {α : Type} :
    ∀ (m : List (String × α)) (k : String) (v : α) (p : String × α),
      p ∈ aset m k v → p ∈ m ∨ p = (k, v) := by
  intro m
  induction m with
  | nil =>
      intro k v p hp
      rcases List.mem_cons.mp hp with h | h
      · exact Or.inr h
      · cases h
  | cons q rest ih =>
      intro k v p hp
      rw [aset] at hp
      by_cases hq : q.1 = k
      · rw [if_pos hq] at hp
        rcases List.mem_cons.mp hp with h | h
        · exact Or.inr (by rw [h, hq])
        · exact Or.inl (List.mem_cons_of_mem q h)
      · rw [if_neg hq] at hp
        rcases List.mem_cons.mp hp with h | h
        · exact Or.inl (h ▸ List.mem_cons_self q rest)
        · rcases ih k v p h with h2 | h2
          · exact Or.inl (List.mem_cons_of_mem q h2)
          · exact Or.inr h2

/-- Every pair of a deleted dict was present and does not carry the
deleted key. -/
theorem mem_aerase {α : Type} (m : List (String × α)) (k : String)
    (p : String × α) (hp : p ∈ aerase m k) : p ∈ m ∧ p.1 ≠ k := by
  rw [aerase] at hp
  have := List.mem_filter.mp hp
  refine ⟨this.1, ?_⟩
  have hb := this.2
  simpa using hb

/-- Filtering the live sessions and then the path-matching ones computes
liveMatching. -/
theorem filter_live_then_path (l : List (String × Session))
    (target : String) :
    ((l.filter fun p => ¬ p.2.kernel_task = some false).filter
        fun p => p.2.path = some target)
      = l.filter fun p =>
          (¬ p.2.kernel_task = some false) ∧ p.2.path = some target := by
  rw [List.filter_filter]
  apply List.filter_congr
  intro a _
  by_cases h1 : a.2.kernel_task = some false <;>
    by_cases h2 : a.2.path = some target <;> simp [h1, h2]

/-- Deletion distributes over dict concatenation. -/
theorem aerase_append {α : Type} (a b : List (String × α)) (k : String) :
    aerase (a ++ b) k = aerase a k ++ aerase b k := by
  simp [aerase, List.filter_append]

/-- The dead-kernel cleanup loop of maybe_resume_session removes exactly
the sessions whose kernel task exists and is not alive, preserving every
other entry in order, provided the map keys are distinct and every dead
session closes without raising. `acc` is the already-processed prefix of
the snapshot. -/
theorem gcLoop_spec :
    ∀ (L acc : List (String × Session)) (sm : SessionManager),
      sm.sessions = acc ++ L →
      ((acc ++ L).map Prod.fst).Nodup →
      (∀ p ∈ L, p.2.kernel_task = some false → (p.2.close).2.2 = false) →
      gcLoop sm L =
        ({ mode := sm.mode,
           sessions := acc ++ L.filter fun p =>
             ¬ p.2.kernel_task = some false }, false) := by
  intro L
  induction L with
  | nil =>
      intro acc sm hsess hn _
      rw [gcLoop]
      cases sm with
      | mk mo se =>
          simp only [List.append_nil] at hsess
          subst hsess
          simp
  | cons q rest ih =>
      intro acc sm hsess hn hclean
      obtain ⟨sid, s⟩ := q
      have hmapn : (acc.map Prod.fst
          ++ sid :: rest.map Prod.fst).Nodup := by
        simpa [List.map_append] using hn
      have hmid := List.nodup_middle.mp hmapn
      have hnots : sid ∉ acc.map Prod.fst ++ rest.map Prod.fst :=
        (List.nodup_cons.mp hmid).1
      have hnacc : sid ∉ acc.map Prod.fst := fun h =>
        hnots (List.mem_append_left _ h)
      have hnrest : sid ∉ rest.map Prod.fst := fun h =>
        hnots (List.mem_append_right _ h)
      have hnodup2 : ((acc ++ rest).map Prod.fst).Nodup := by
        rw [List.map_append]
        exact (List.nodup_cons.mp hmid).2
      by_cases hdead : s.kernel_task = some false
      · have hlook : alookup sm.sessions sid = some s := by
          rw [hsess, alookup_append, alookup_not_mem acc sid hnacc]
          show alookup ((sid, s) :: rest) sid = some s
          rw [alookup, if_pos rfl]
        have hcl : (s.close).2.2 = false :=
          hclean (sid, s) (List.mem_cons_self _ _) hdead
        have hcs : sm.close_session sid =
            ({ sm with
               sessions := aerase (aset sm.sessions sid (s.close).1) sid },
             false) := by
          rw [SessionManager.close_session, hlook]
          simp only [hcl, Bool.false_eq_true, if_false]
        have herase : aerase (aset sm.sessions sid (s.close).1) sid
            = acc ++ rest := by
          rw [aerase_aset_self, hsess, aerase_append,
            aerase_eq_self acc sid hnacc, aerase_cons_self,
            aerase_eq_self rest sid hnrest]
        have hstep : gcLoop sm ((sid, s) :: rest) =
            gcLoop { sm with sessions := acc ++ rest } rest := by
          rw [gcLoop, if_pos hdead, hcs]
          simp only [Bool.false_eq_true, if_false]
          rw [herase]
        rw [hstep]
        rw [ih acc { sm with sessions := acc ++ rest } rfl hnodup2
          (fun p hp hd => hclean p (List.mem_cons_of_mem _ hp) hd)]
        have hfilter : ((sid, s) :: rest).filter
            (fun p => ¬ p.2.kernel_task = some false)
            = rest.filter (fun p => ¬ p.2.kernel_task = some false) := by
          rw [List.filter_cons]
          simp [hdead]
        rw [hfilter]
      · have hstep : gcLoop sm ((sid, s) :: rest) = gcLoop sm rest := by
          rw [gcLoop, if_neg hdead]
        rw [hstep]
        have hsess2 : sm.sessions = (acc ++ [(sid, s)]) ++ rest := by
          rw [hsess, List.append_assoc]
          rfl
        have hn2 : (((acc ++ [(sid, s)]) ++ rest).map Prod.fst).Nodup := by
          rw [List.append_assoc]
          simpa using hn
        rw [ih (acc ++ [(sid, s)]) sm hsess2 hn2
          (fun p hp hd => hclean p (List.mem_cons_of_mem _ hp) hd)]
        have hfilter : ((sid, s) :: rest).filter
            (fun p => ¬ p.2.kernel_task = some false)
            = (sid, s) :: rest.filter
                (fun p => ¬ p.2.kernel_task = some false) := by
          rw [List.filter_cons]
          simp [hdead]
        rw [hfilter]
        simp [List.append_assoc]

/-- C1 counterexample: an edit-mode map holding exactly one session whose
resolved path matches the file key and whose connection state is ORPHANED
— but whose kernel has died. The claim requires resumption (re-key and
return), yet the code garbage-collects the session first and returns
None, leaving no entry for the path. -/
theorem edit_resume_dead_orphan_counterexample :
    sessDeadOrphan.connection_state = ConnectionState.ORPHANED
      ∧ (smEdit1.sessions.filter fun p => p.2.path = some "/nb.py")
          = [("s1", sessDeadOrphan)]
      ∧ smEdit1.maybe_resume_session "s2" "/nb.py" (fun p => p)
          = MRResult.ok { mode := SessionMode.EDIT, sessions := [] } none := by
  refine ⟨rfl, rfl, ?_⟩
  rfl

/-- C1 amended: in edit mode, with distinct session-map keys and dead
sessions that close cleanly: two or more LIVE sessions (kernel task
absent or alive) sharing the resolved file path make maybe_resume_session
raise the internal-consistency exception; exactly one live matching
session in the ORPHANED state is re-keyed under the new session id,
returned, and is afterwards the unique map entry for that file path; in
every other case (no live match, or one live match that is not ORPHANED)
the result is None. The liveness qualifier is what the counterexample
forces: a dead-kernel session reporting ORPHANED is garbage-collected
rather than resumed. -/
theorem maybe_resume_edit_spec (sm : SessionManager) (nid fk : String)
    (ap : String → String)
    (hmode : sm.mode = SessionMode.EDIT)
    (hnodup : (sm.sessions.map Prod.fst).Nodup)
    (hclean : ∀ p ∈ sm.sessions, p.2.kernel_task = some false →
      (p.2.close).2.2 = false) :
    (2 ≤ (liveMatching sm (ap fk)).length →
        ∃ sm2, sm.maybe_resume_session nid fk ap
          = MRResult.raised sm2
              "Only one session should exist while editing")
      ∧ (∀ sid s, liveMatching sm (ap fk) = [(sid, s)] →
          s.connection_state = ConnectionState.ORPHANED →
          ∃ sm2, sm.maybe_resume_session nid fk ap
              = MRResult.ok sm2 (some s)
            ∧ alookup sm2.sessions nid = some s
            ∧ (∀ k t, (k, t) ∈ sm2.sessions → t.path = some (ap fk) →
                k = nid))
      ∧ (liveMatching sm (ap fk) = [] →
          ∃ sm2, sm.maybe_resume_session nid fk ap = MRResult.ok sm2 none)
      ∧ (∀ sid s, liveMatching sm (ap fk) = [(sid, s)] →
          s.connection_state ≠ ConnectionState.ORPHANED →
          ∃ sm2, sm.maybe_resume_session nid fk ap
            = MRResult.ok sm2 none) := by
  have hrun : ¬ sm.mode = SessionMode.RUN := by
    rw [hmode]
    intro h
    cases h
  have hgc := gcLoop_spec sm.sessions [] sm (by simp)
    (by simpa using hnodup) hclean
  simp only [List.nil_append] at hgc
  set LF := sm.sessions.filter (fun p => ¬ p.2.kernel_task = some false)
    with hLF
  have hmatch : LF.filter (fun p => p.2.path = some (ap fk))
      = liveMatching sm (ap fk) := by
    rw [hLF]
    exact filter_live_then_path sm.sessions (ap fk)
  have hbody : sm.maybe_resume_session nid fk ap =
      (if (liveMatching sm (ap fk)).length = 0 then
         MRResult.ok { mode := sm.mode, sessions := LF } none
       else if (liveMatching sm (ap fk)).length > 1 then
         MRResult.raised { mode := sm.mode, sessions := LF }
           "Only one session should exist while editing"
       else
         match (liveMatching sm (ap fk)).head? with
         | none => MRResult.ok { mode := sm.mode, sessions := LF } none
         | some (session_id, s) =>
             if s.connection_state = ConnectionState.ORPHANED then
               MRResult.ok
                 { mode := sm.mode,
                   sessions :=
                     if nid ≠ session_id
                         ∧ (alookup (aset LF nid s) session_id).isSome then
                       aerase (aset LF nid s) session_id
                     else aset LF nid s }
                 (some s)
             else MRResult.ok { mode := sm.mode, sessions := LF } none) := by
    rw [SessionManager.maybe_resume_session, if_neg hrun]
    simp only [hgc, hmatch, Bool.false_eq_true, if_false]
  have hnodLF : (LF.map Prod.fst).Nodup := by
    rw [hLF]
    exact List.Nodup.sublist
      (List.Sublist.map Prod.fst (List.filter_sublist sm.sessions)) hnodup
  refine ⟨?_, ?_, ?_, ?_⟩
  · intro h2
    refine ⟨{ mode := sm.mode, sessions := LF }, ?_⟩
    rw [hbody, if_neg (by omega), if_pos (by omega)]
  · intro sid s hm horph
    have hmemlm : (sid, s) ∈ liveMatching sm (ap fk) := by
      rw [hm]
      exact List.mem_cons_self _ _
    have hmemF := List.mem_filter.mp hmemlm
    have hprops : (¬ s.kernel_task = some false)
        ∧ s.path = some (ap fk) := by
      have := hmemF.2
      simpa using this
    have hmemLF : (sid, s) ∈ LF := by
      rw [hLF]
      exact List.mem_filter.mpr ⟨hmemF.1, by simpa using hprops.1⟩
    have huniq : ∀ k t, (k, t) ∈ LF → t.path = some (ap fk) →
        (k, t) = (sid, s) := by
      intro k t hkt hpath
      have hktF := List.mem_filter.mp (hLF ▸ hkt)
      have hlive : ¬ t.kernel_task = some false := by
        have := hktF.2
        simpa using this
      have : (k, t) ∈ liveMatching sm (ap fk) :=
        List.mem_filter.mpr ⟨hktF.1, by simp [hlive, hpath]⟩
      rw [hm] at this
      simpa using this
    refine ⟨{ mode := sm.mode,
              sessions :=
                if nid ≠ sid
                    ∧ (alookup (aset LF nid s) sid).isSome then
                  aerase (aset LF nid s) sid
                else aset LF nid s }, ?_, ?_, ?_⟩
    · rw [hbody, hm]
      simp only [List.length_cons, List.length_nil, List.head?_cons]
      rw [if_neg (by simp), if_neg (by simp), if_pos horph]
    · by_cases hc : nid ≠ sid ∧ ((alookup (aset LF nid s) sid).isSome
        = true)
      · simp only [if_pos hc]
        rw [alookup_aerase_ne _ sid nid hc.1, alookup_aset_self]
      · simp only [if_neg hc]
        exact alookup_aset_self LF nid s
    · intro k t hkt hpath
      by_cases hc : nid ≠ sid ∧ ((alookup (aset LF nid s) sid).isSome
        = true)
      · simp only [if_pos hc] at hkt
        obtain ⟨hkt1, hkne⟩ := mem_aerase _ sid (k, t) hkt
        rcases mem_aset LF nid s (k, t) hkt1 with hin | heq
        · have := huniq k t hin hpath
          have hks : k = sid := by
            simpa using congrArg Prod.fst this
          exact absurd hks hkne
        · simpa using congrArg Prod.fst heq
      · simp only [if_neg hc] at hkt
        rcases mem_aset LF nid s (k, t) hkt with hin | heq
        · have heqs := huniq k t hin hpath
          have hks : k = sid := by
            simpa using congrArg Prod.fst heqs
          by_cases hns : nid = sid
          · rw [hks, hns]
          · exfalso
            apply hc
            refine ⟨hns, ?_⟩
            rw [alookup_aset_ne LF nid sid s
              (fun he => hns he.symm)]
            rw [alookup_of_mem_nodup LF sid s hnodLF hmemLF]
            rfl
        · simpa using congrArg Prod.fst heq
  · intro hempty
    refine ⟨{ mode := sm.mode, sessions := LF }, ?_⟩
    rw [hbody, hempty]
    rfl
  · intro sid s hm hno
    refine ⟨{ mode := sm.mode, sessions := LF }, ?_⟩
    rw [hbody, hm]
    simp only [List.length_cons, List.length_nil, List.head?_cons]
    rw [if_neg (by simp), if_neg (by simp), if_neg hno]

/-- C1 witness: resuming a concrete edit-mode manager holding one live
ORPHANED session for the file re-keys it under the new id "s2" and
leaves it as the unique entry for the path. -/
theorem maybe_resume_edit_spec_witness :
    ∃ sm2, smEdit2.maybe_resume_session "s2" "/nb.py" (fun p => p)
        = MRResult.ok sm2 (some sessLiveOrphan)
      ∧ alookup sm2.sessions "s2" = some sessLiveOrphan
      ∧ (∀ k t, (k, t) ∈ sm2.sessions → t.path = some "/nb.py" →
          k = "s2") :=
  (maybe_resume_edit_spec smEdit2 "s2" "/nb.py" (fun p => p) rfl
    (by decide) (by decide)).2.1 "s1" sessLiveOrphan (by decide) rfl

end Marimo